import Mathlib

/-!
Formal model of the load-balancer pool-member lifecycle resource
(`resource_gcore_lbmember.go`): the update reconciliation of the pool's
member collection, the read refresh, the create / update / delete control
flow with their asynchronous task handling, the weight and address
validation functions, and the import identifier decoding.

Remote interactions are modelled by explicit environments: each remote
call's response is a field of an environment record, and asynchronous
polling is modelled by a finite list of successive observations (the list
length is the poll budget; running out of observations is the timeout).
-/

/-- A member record as observed in the remote pool (`lbpools.PoolMember`):
identity, address, port, weight, subnet, instance, operating status. -/
structure PoolMember where
  id : String
  address : String
  protocolPort : Int
  weight : Int
  subnetID : String
  instanceID : String
  operatingStatus : String
deriving DecidableEq

/-- A remote pool: identity, name and its ordered member collection. -/
structure Pool where
  id : String
  name : String
  members : List PoolMember
deriving DecidableEq

/-- A member spec sent to the remote on create or full-collection update
(`lbpools.CreatePoolMemberOpts`). -/
structure CreatePoolMemberOpts where
  address : String
  protocolPort : Int
  weight : Int
  subnetID : String
  instanceID : String
  id : String
deriving DecidableEq

/-- The desired member configuration read from the resource data
(`d.Get` of address, protocol_port, weight, subnet_id, instance_id). -/
structure MemberConfig where
  address : String
  protocolPort : Int
  weight : Int
  subnetID : String
  instanceID : String
deriving DecidableEq

/-- Error values crossing the remote boundary, as the delete path's type
switch and the poller distinguish them: the concrete not-found error type
(`gcorecloud.ErrDefault404`), any other transport error, a task reported
as failed, the poll budget running out, an extraction failure, and the
delete verification's "pool member still exist" condition. -/
inductive GErr where
  | errDefault404
  | transport (msg : String)
  | taskFailure (taskID : String)
  | timeout
  | extraction (msg : String)
  | stillExist (mid : String)
deriving DecidableEq

/-- Result of one lifecycle operation: success, an error returned as
diagnostics, or an out-of-bounds index access (a runtime fault, modelling
`results.Tasks[0]` on an empty task list). -/
inductive Outcome (α : Type) where
  | ok (val : α)
  | err (e : GErr)
  | outOfBounds
deriving DecidableEq

/-- Whether an outcome is a success. -/
def Outcome.isOk : Outcome α → Bool
  | .ok _ => true
  | _ => false

/-- The member-set reconciliation loop of `resourceLBMemberUpdate`
(lines 261-283): for each current pool member in order, members whose
identity differs from the resource identity are copied verbatim into the
replacement spec, and the member whose identity equals the resource
identity gets the desired configuration's fields with the resource
identity. -/
def buildReplacementMembers (poolMembers : List PoolMember) (resourceID : String)
    (cfg : MemberConfig) : List CreatePoolMemberOpts :=
  poolMembers.map fun pm =>
    if pm.id ≠ resourceID then
      { address := pm.address
        protocolPort := pm.protocolPort
        weight := pm.weight
        subnetID := pm.subnetID
        instanceID := pm.instanceID
        id := pm.id }
    else
      { address := cfg.address
        protocolPort := cfg.protocolPort
        weight := cfg.weight
        subnetID := cfg.subnetID
        instanceID := cfg.instanceID
        id := resourceID }

/-- Example pool members from the spec's update-reconciliation test:
A(id=1,w=5), B(id=2,w=9), C(id=3,w=1). -/
def exMembers : List PoolMember :=
  [ { id := "1", address := "10.0.0.1", protocolPort := 80, weight := 5,
      subnetID := "s1", instanceID := "i1", operatingStatus := "ONLINE" },
    { id := "2", address := "10.0.0.2", protocolPort := 80, weight := 9,
      subnetID := "s2", instanceID := "i2", operatingStatus := "ONLINE" },
    { id := "3", address := "10.0.0.3", protocolPort := 80, weight := 1,
      subnetID := "s3", instanceID := "i3", operatingStatus := "ONLINE" } ]

/-- Example desired configuration targeting member id=2 with weight 42. -/
def exCfg : MemberConfig :=
  { address := "10.0.0.2", protocolPort := 80, weight := 42,
    subnetID := "s2", instanceID := "i2" }

/-- Claim C1: the Update reconciliation produces a replacement collection of
the same length and positional order as the current collection; every member
whose identity differs from the resource identity is copied verbatim, and
the member whose identity equals the resource identity gets the desired
configuration's address, port, weight, subnet and instance paired with the
existing identity. -/
theorem update_reconciler_preserves_order_and_targets
    (pms : List PoolMember) (mid : String) (cfg : MemberConfig)
    (i : Nat) (h : i < pms.length) :
    (buildReplacementMembers pms mid cfg).length = pms.length ∧
    ((pms.get ⟨i, h⟩).id ≠ mid →
      (buildReplacementMembers pms mid cfg).get
          ⟨i, by simpa [buildReplacementMembers] using h⟩ =
        { address := (pms.get ⟨i, h⟩).address
          protocolPort := (pms.get ⟨i, h⟩).protocolPort
          weight := (pms.get ⟨i, h⟩).weight
          subnetID := (pms.get ⟨i, h⟩).subnetID
          instanceID := (pms.get ⟨i, h⟩).instanceID
          id := (pms.get ⟨i, h⟩).id }) ∧
    ((pms.get ⟨i, h⟩).id = mid →
      (buildReplacementMembers pms mid cfg).get
          ⟨i, by simpa [buildReplacementMembers] using h⟩ =
        { address := cfg.address
          protocolPort := cfg.protocolPort
          weight := cfg.weight
          subnetID := cfg.subnetID
          instanceID := cfg.instanceID
          id := (pms.get ⟨i, h⟩).id }) := by
  refine ⟨by simp [buildReplacementMembers], ?_, ?_⟩
  · intro hne
    rw [List.get_eq_getElem] at hne
    simp [buildReplacementMembers, List.get_eq_getElem, List.getElem_map, hne]
  · intro heq
    rw [List.get_eq_getElem] at heq
    simp [buildReplacementMembers, List.get_eq_getElem, List.getElem_map, heq]

/-- Witness for C1 at the spec's concrete example: the target member at
position 1 receives the desired weight 42 with its existing identity. -/
theorem update_reconciler_preserves_order_and_targets_witness :
    1 < exMembers.length ∧
    (buildReplacementMembers exMembers "2" exCfg).get ⟨1, by decide⟩ =
      { address := "10.0.0.2", protocolPort := 80, weight := 42,
        subnetID := "s2", instanceID := "i2", id := "2" } := by
  refine ⟨by decide, ?_⟩
  have h := (update_reconciler_preserves_order_and_targets exMembers "2" exCfg
    1 (by decide)).2.2 (by decide)
  exact h

/-- Claim C5: when no current member's identity equals the target identity,
the reconciliation returns verbatim copies of every current member and the
desired configuration is never substituted anywhere. -/
theorem update_reconciler_no_match_passthrough
    (pms : List PoolMember) (mid : String) (cfg : MemberConfig)
    (h : ∀ pm ∈ pms, pm.id ≠ mid) :
    buildReplacementMembers pms mid cfg =
      pms.map fun pm =>
        { address := pm.address
          protocolPort := pm.protocolPort
          weight := pm.weight
          subnetID := pm.subnetID
          instanceID := pm.instanceID
          id := pm.id } := by
  unfold buildReplacementMembers
  apply List.map_congr_left
  intro pm hpm
  simp [h pm hpm]

/-- Witness for C5: a two-member pool in which neither member matches the
resource identity passes through unchanged. -/
theorem update_reconciler_no_match_passthrough_witness :
    (∀ pm ∈ exMembers, pm.id ≠ "z") ∧
    buildReplacementMembers exMembers "z" exCfg =
      exMembers.map (fun pm =>
        { address := pm.address
          protocolPort := pm.protocolPort
          weight := pm.weight
          subnetID := pm.subnetID
          instanceID := pm.instanceID
          id := pm.id }) :=
  ⟨by decide, update_reconciler_no_match_passthrough exMembers "z" exCfg (by decide)⟩

/-- The locally tracked resource state: the resource identity and the member
fields that the read refresh may overwrite. -/
structure LocalState where
  id : String
  address : String
  protocolPort : Int
  weight : Int
  subnetID : String
  instanceID : String
  operatingStatus : String
deriving DecidableEq

/-- Body of the read refresh loop on an identity match: overwrite the
locally tracked member fields from the remote record (`d.Set` calls on
lines 230-235); the resource identity itself is never written. -/
def applyRemoteFields (st : LocalState) (pm : PoolMember) : LocalState :=
  { st with
    address := pm.address
    protocolPort := pm.protocolPort
    weight := pm.weight
    subnetID := pm.subnetID
    instanceID := pm.instanceID
    operatingStatus := pm.operatingStatus }

/-- The member scan of `resourceLBMemberRead` (lines 227-237): iterate the
fetched pool's member collection in order and, whenever a member's identity
equals `mid` (the resource identity, read once before the loop), overwrite
the locally tracked fields from that remote record. -/
def readScanMembers (mid : String) (st : LocalState) (members : List PoolMember) :
    LocalState :=
  members.foldl (fun acc pm => if mid = pm.id then applyRemoteFields acc pm else acc) st

/-- The read refresh applied to a fetched pool. -/
def readRefresh (st : LocalState) (pool : Pool) : LocalState :=
  readScanMembers st.id st pool.members

theorem readScanMembers_no_match (mid : String) (st : LocalState)
    (ms : List PoolMember) (h : ∀ pm ∈ ms, ¬ mid = pm.id) :
    readScanMembers mid st ms = st := by
  induction ms generalizing st with
  | nil => rfl
  | cons q rest ih =>
    have hq : ¬ mid = q.id := h q (List.mem_cons_self q rest)
    simp only [readScanMembers, List.foldl_cons, if_neg hq]
    exact ih st fun pm hpm => h pm (List.mem_cons_of_mem q hpm)

theorem applyRemoteFields_idem (st : LocalState) (pm : PoolMember) :
    applyRemoteFields (applyRemoteFields st pm) pm = applyRemoteFields st pm := rfl

theorem readScanMembers_absorb (mid : String) (pm : PoolMember) (st : LocalState)
    (ms : List PoolMember) (h : ∀ q ∈ ms, mid = q.id → q = pm) :
    readScanMembers mid (applyRemoteFields st pm) ms = applyRemoteFields st pm := by
  induction ms generalizing st with
  | nil => rfl
  | cons q rest ih =>
    by_cases hq : mid = q.id
    · have hqpm : q = pm := h q (List.mem_cons_self q rest) hq
      subst hqpm
      simp only [readScanMembers, List.foldl_cons, if_pos hq]
      rw [show applyRemoteFields (applyRemoteFields st q) q = applyRemoteFields st q from rfl]
      exact ih st fun r hr => h r (List.mem_cons_of_mem q hr)
    · simp only [readScanMembers, List.foldl_cons, if_neg hq]
      exact ih st fun r hr => h r (List.mem_cons_of_mem q hr)

theorem readScanMembers_unique_match (mid : String) (pm : PoolMember)
    (st : LocalState) (ms : List PoolMember) (hmem : pm ∈ ms) (hid : mid = pm.id)
    (huniq : ∀ q ∈ ms, mid = q.id → q = pm) :
    readScanMembers mid st ms = applyRemoteFields st pm := by
  induction ms generalizing st with
  | nil => cases hmem
  | cons q rest ih =>
    by_cases hq : mid = q.id
    · have hqpm : q = pm := huniq q (List.mem_cons_self q rest) hq
      subst hqpm
      simp only [readScanMembers, List.foldl_cons, if_pos hq]
      exact readScanMembers_absorb mid q st rest
        fun r hr => huniq r (List.mem_cons_of_mem q hr)
    · have hpm : pm ∈ rest := by
        rcases List.mem_cons.mp hmem with h1 | h1
        · exact absurd (h1 ▸ hid) hq
        · exact h1
      simp only [readScanMembers, List.foldl_cons, if_neg hq]
      exact ih st hpm fun r hr => huniq r (List.mem_cons_of_mem q hr)

theorem readScanMembers_id (mid : String) (st : LocalState) (ms : List PoolMember) :
    (readScanMembers mid st ms).id = st.id := by
  induction ms generalizing st with
  | nil => rfl
  | cons q rest ih =>
    by_cases hq : mid = q.id
    · simp only [readScanMembers, List.foldl_cons, if_pos hq]
      exact ih (applyRemoteFields st q)
    · simp only [readScanMembers, List.foldl_cons, if_neg hq]
      exact ih st

/-- Claim C6: when the resource identity matches no member identity in the
fetched pool, the read leaves every locally tracked field untouched and
does not clear the identity; when a (unique) match exists, all of those
fields are overwritten from the matching remote record; the identity is
never written either way. -/
theorem read_refresh_frame (st : LocalState) (pool : Pool) :
    ((∀ pm ∈ pool.members, pm.id ≠ st.id) → readRefresh st pool = st) ∧
    (∀ pm, pm ∈ pool.members → pm.id = st.id →
      (∀ q ∈ pool.members, q.id = st.id → q = pm) →
      readRefresh st pool =
        { id := st.id
          address := pm.address
          protocolPort := pm.protocolPort
          weight := pm.weight
          subnetID := pm.subnetID
          instanceID := pm.instanceID
          operatingStatus := pm.operatingStatus }) ∧
    (readRefresh st pool).id = st.id := by
  refine ⟨?_, ?_, readScanMembers_id st.id st pool.members⟩
  · intro h
    exact readScanMembers_no_match st.id st pool.members
      fun pm hpm heq => h pm hpm heq.symm
  · intro pm hmem hid huniq
    have := readScanMembers_unique_match st.id pm st pool.members hmem hid.symm
      fun q hq hq2 => huniq q hq hq2.symm
    rw [readRefresh, this]
    rfl

/-- Example local state pointing at member id=2 with stale fields. -/
def exState : LocalState :=
  { id := "2", address := "0.0.0.0", protocolPort := 1, weight := 0,
    subnetID := "", instanceID := "", operatingStatus := "" }

/-- Example fetched pool holding the three example members. -/
def exPool : Pool := { id := "pool-1", name := "pool", members := exMembers }

/-- Witness for C6: reading against the example pool overwrites the tracked
fields from the remote record with identity 2 and keeps the identity. -/
theorem read_refresh_frame_witness :
    readRefresh exState exPool =
      { id := "2", address := "10.0.0.2", protocolPort := 80, weight := 9,
        subnetID := "s2", instanceID := "i2", operatingStatus := "ONLINE" } :=
  (read_refresh_frame exState exPool).2.1
    { id := "2", address := "10.0.0.2", protocolPort := 80, weight := 9,
      subnetID := "s2", instanceID := "i2", operatingStatus := "ONLINE" }
    (by decide) (by decide) (by decide)

/-- Source constant `minWeight`. -/
def minWeight : Int := 0

/-- Source constant `maxWeight`. -/
def maxWeight : Int := 256

/-- The weight validation function from the resource schema (lines 126-132):
no diagnostics when `minWeight ≤ v` and `v ≤ maxWeight`, else a single
range-error diagnostic. -/
def validateWeight (v : Int) : List String :=
  if minWeight ≤ v ∧ v ≤ maxWeight then []
  else ["Valid values: " ++ toString minWeight ++ " to " ++ toString maxWeight ++
        " got: " ++ toString v]

/-- Claim C7: the weight validation accepts `w` if and only if
`0 ≤ w ≤ 256`; in particular `-1` and `257` are rejected by the validation
function, which runs before any remote call. -/
theorem weight_validation_range (w : Int) :
    (validateWeight w = [] ↔ 0 ≤ w ∧ w ≤ 256) ∧
    (validateWeight (-1)).isEmpty = false ∧
    (validateWeight 257).isEmpty = false := by
  refine ⟨?_, by decide, by decide⟩
  by_cases h : (0 : Int) ≤ w ∧ w ≤ 256 <;>
    simp [validateWeight, minWeight, maxWeight, h]

/-- The address validation function from the resource schema (lines
106-114), parameterized over the external IP parser (`net.ParseIP`): a
string the parser accepts yields no diagnostics, any other string yields a
diagnostic quoting the field key and naming the rejected value. -/
def validateAddress {α : Type} (parseIP : String → Option α) (key v : String) :
    List String :=
  match parseIP v with
  | some _ => []
  | none => ["\"" ++ key ++ "\"" ++ " must be a valid ip, got: " ++ v]

/-- Claim C8: address validation accepts exactly the strings the IP parser
accepts, and rejects every other string with a diagnostic that quotes the
offending field key and includes the rejected value verbatim. -/
theorem address_validation_accepts_iff_ip {α : Type} (parseIP : String → Option α)
    (key v : String) :
    (validateAddress parseIP key v = [] ↔ (parseIP v).isSome = true) ∧
    ((parseIP v).isSome = false →
      validateAddress parseIP key v =
        ["\"" ++ key ++ "\"" ++ " must be a valid ip, got: " ++ v]) := by
  cases h : parseIP v <;> simp [validateAddress, h]

/-- An IP parser that rejects every string, standing in for `net.ParseIP`
on inputs that are not IP literals. -/
def rejectAllIPs : String → Option Unit := fun _ => none

/-- Witness for C8: the string from the spec's example is rejected with the
diagnostic naming the field key and the value. -/
theorem address_validation_accepts_iff_ip_witness :
    (rejectAllIPs "not-an-ip").isSome = false ∧
    validateAddress rejectAllIPs "address" "not-an-ip" =
      ["\"" ++ "address" ++ "\"" ++ " must be a valid ip, got: " ++ "not-an-ip"] :=
  ⟨rfl, (address_validation_accepts_iff_ip rejectAllIPs "address" "not-an-ip").2 rfl⟩

/-- Decimal digit value of a character, if it is a digit. -/
def charDigit (c : Char) : Option Nat :=
  if '0' ≤ c ∧ c ≤ '9' then some (c.toNat - '0'.toNat) else none

/-- Accumulate a decimal number over a character list; any non-digit
character fails the parse. -/
def digitsToNatAux : List Char → Nat → Option Nat
  | [], acc => some acc
  | c :: rest, acc =>
    match charDigit c with
    | some d => digitsToNatAux rest (acc * 10 + d)
    | none => none

/-- Parse a non-empty all-digit token as a natural number. -/
def parseNatToken (s : String) : Option Nat :=
  match s.data with
  | [] => none
  | cs => digitsToNatAux cs 0

/-- Split a character list on the slash delimiter. -/
def splitSlashAux : List Char → List Char → List String
  | [], acc => [String.mk acc.reverse]
  | c :: rest, acc =>
    if c = '/' then String.mk acc.reverse :: splitSlashAux rest []
    else splitSlashAux rest (c :: acc)

/-- Split a string into its slash-delimited tokens. -/
def splitOnSlash (s : String) : List String := splitSlashAux s.data []

/-- Modelled from the spec: `ImportStringParserExtended` is not part of this
module's source; per the external-interface section the composite import
identifier is a single string of four delimiter-separated tokens — project
identifier, region identifier, member identifier, pool identifier — as in
"42/5/m-100/p-7". The numeric identifiers are decoded, and a malformed
identifier (wrong token count or non-numeric project/region) is an error. -/
def importStringParserExtended (s : String) :
    Except String (Nat × Nat × String × String) :=
  match splitOnSlash s with
  | [p, r, m, lb] =>
    match parseNatToken p, parseNatToken r with
    | some projectID, some regionID => .ok (projectID, regionID, m, lb)
    | _, _ => .error ("failed to parse the import id: " ++ s)
  | _ => .error ("failed to parse the import id: " ++ s)

/-- The fields the import state function sets on the resource data:
project, region, pool and the resource identity. -/
structure ImportState where
  projectID : Nat
  regionID : Nat
  poolID : String
  id : String
deriving DecidableEq

/-- The importer state function of the resource (lines 38-50): decode the
composite identifier; on a decode error return the error with no field set;
otherwise set project, region and pool and adopt the member token as the
resource identity. -/
def importStateFunc (rawID : String) : Except String ImportState :=
  match importStringParserExtended rawID with
  | .error e => .error e
  | .ok (projectID, regionID, memberID, lbPoolID) =>
    .ok { projectID := projectID, regionID := regionID,
          poolID := lbPoolID, id := memberID }

/-- Whether an `Except` value is a success. -/
def exceptIsOk {ε α : Type} : Except ε α → Bool
  | .ok _ => true
  | .error _ => false

/-- Claim C9: importing "42/5/m-100/p-7" sets project 42, region 5, resource
identity m-100 and pool p-7, in that token order; a decode error makes
the import fail with that error and set nothing, as on the malformed
identifier "m-100". -/
theorem import_composite_id_decoding :
    importStateFunc "42/5/m-100/p-7" =
      .ok { projectID := 42, regionID := 5, poolID := "p-7", id := "m-100" } ∧
    (∀ s e, importStringParserExtended s = .error e →
      importStateFunc s = .error e) ∧
    exceptIsOk (importStateFunc "m-100") = false := by
  refine ⟨rfl, ?_, rfl⟩
  intro s e h
  simp [importStateFunc, h]

/-- Witness for C9: the error branch propagates on a concrete malformed
identifier. -/
theorem import_composite_id_decoding_witness :
    importStringParserExtended "m-100" =
      .error ("failed to parse the import id: " ++ "m-100") ∧
    importStateFunc "m-100" =
      .error ("failed to parse the import id: " ++ "m-100") :=
  ⟨rfl, import_composite_id_decoding.2.1 "m-100"
    ("failed to parse the import id: " ++ "m-100") rfl⟩

/-- Task status as observed by one poll of the task poller. -/
inductive TaskStatus where
  | running
  | finished
  | errored
deriving DecidableEq

/-- Task metadata fetched by `tasks.Get`, as the extraction functions use
it: the task identity and the member identity the result metadata may
encode. -/
structure TaskInfo where
  taskID : String
  memberID : Option String
deriving DecidableEq

/-- Modelled from the spec: `lbpools.ExtractPoolMemberIDFromTask` is not
part of this module's source; a task's success payload encodes the affected
member's identity, extracted by domain-specific parsing of the task
metadata that fails when the metadata does not carry it. -/
def extractPoolMemberIDFromTask (taskInfo : TaskInfo) : Except String String :=
  match taskInfo.memberID with
  | some pmID => .ok pmID
  | none => .error "no member identity in task result metadata"

/-- The extraction closure of `resourceLBMemberCreate` (lines 188-198):
fetch the task info and parse the member identity out of it, wrapping
either failure with a description naming the task. -/
def createTaskChecker (taskGet : String → Except String TaskInfo)
    (task : String) : Except GErr String :=
  match taskGet task with
  | .error e =>
    .error (.transport ("cannot get task with ID: " ++ task ++ ". Error: " ++ e))
  | .ok taskInfo =>
    match extractPoolMemberIDFromTask taskInfo with
    | .error e =>
      .error (.extraction ("cannot retrieve LBMember ID from task info: " ++ e))
    | .ok pmID => .ok pmID

/-- The extraction closure of `resourceLBMemberUpdate` (lines 297-307):
same shape as the create extraction; its result is used only for
diagnostics by the caller. -/
def updateTaskChecker (taskGet : String → Except String TaskInfo)
    (task : String) : Except GErr String :=
  match taskGet task with
  | .error e =>
    .error (.transport ("cannot get task with ID: " ++ task ++ ". Error: " ++ e))
  | .ok taskInfo =>
    match extractPoolMemberIDFromTask taskInfo with
    | .error e =>
      .error (.extraction ("cannot retrieve LBPool ID from task info: " ++ e))
    | .ok lbPoolID => .ok lbPoolID

/-- Modelled from the spec: `tasks.WaitTaskAndReturnResult` is not part of
this module's source; per the task-poller contract it repeatedly fetches
the task status until terminal success (the caller-supplied extraction then
runs and its result or error is returned), terminal failure (an error
naming the task), or the poll budget elapses (a timeout error). The finite
list of observed statuses is the poll budget. -/
def waitTaskAndReturnResult {α : Type} (taskID : String) :
    List TaskStatus → (String → Except GErr α) → Except GErr α
  | [], _ => .error .timeout
  | .running :: rest, checker => waitTaskAndReturnResult taskID rest checker
  | .finished :: _, checker => checker taskID
  | .errored :: _, _ => .error (.taskFailure taskID)

/-- The linear scan of the delete verification (lines 354-358): whether the
member identity still appears in the fetched pool's member collection. -/
def memberStillPresent (mid : String) (pool : Pool) : Bool :=
  pool.members.any fun pm => pm.id = mid

/-- The verification function of `resourceLBMemberDelete` (lines 349-360):
propagate a pool-fetch error; report the member as still existing when its
identity appears in the member collection; otherwise succeed. -/
def deleteVerifyCheck (mid : String) (fetched : Except GErr Pool) :
    Except GErr Unit :=
  match fetched with
  | .error e => .error e
  | .ok pool =>
    if memberStillPresent mid pool then .error (.stillExist mid) else .ok ()

/-- Modelled from the spec: the delete path's wait — the poller runs the
verification on each poll over the successive pool observations; a
still-present member is a transient condition causing another poll, any
other verification error is returned, success is returned as is, and an
exhausted poll budget is a timeout error. -/
def deleteVerifyWait (mid : String) : List (Except GErr Pool) → Except GErr Unit
  | [] => .error .timeout
  | fetched :: rest =>
    match deleteVerifyCheck mid fetched with
    | .error (.stillExist _) => deleteVerifyWait mid rest
    | .error e => .error e
    | .ok _ => .ok ()

/-- The control flow of `resourceLBMemberDelete` (lines 317-369): issue the
remove-member call; a not-found error clears the identity and succeeds; any
other error of that call is returned with the identity unchanged; otherwise
take the first task of the response and run the delete verification under
the poller, clearing the identity only on success. Returns the operation
outcome and the resource identity afterwards. -/
def lbMemberDelete (mid : String) (deleteResp : Except GErr (List String))
    (polls : List (Except GErr Pool)) : Outcome Unit × String :=
  match deleteResp with
  | .error .errDefault404 => (.ok (), "")
  | .error e => (.err e, mid)
  | .ok taskList =>
    match taskList[0]? with
    | none => (.outOfBounds, mid)
    | some _ =>
      match deleteVerifyWait mid polls with
      | .error e => (.err e, mid)
      | .ok _ => (.ok (), "")

/-- Remote responses observed during one Create call: the client
construction, the create-member call (its task list on success), the task
status polls, and the task-info fetches of the extraction. -/
structure CreateEnv where
  clientResp : Except GErr Unit
  createResp : Except GErr (List String)
  statusPolls : List TaskStatus
  taskGet : String → Except String TaskInfo

/-- The control flow of `resourceLBMemberCreate` (lines 159-208): create
the client, issue the create-member call, take the first task of the
response, wait for it with the create extraction; only then is the
extracted member identity adopted (`d.SetId`). The identity starts empty
(the resource is absent) and the result of the trailing read refresh is
discarded by the source. Returns the operation outcome and the resource
identity afterwards. -/
def lbMemberCreate (env : CreateEnv) : Outcome String × String :=
  match env.clientResp with
  | .error e => (.err e, "")
  | .ok _ =>
    match env.createResp with
    | .error e => (.err e, "")
    | .ok taskList =>
      match taskList[0]? with
      | none => (.outOfBounds, "")
      | some taskID =>
        match waitTaskAndReturnResult taskID env.statusPolls
            (createTaskChecker env.taskGet) with
        | .error e => (.err e, "")
        | .ok pmID => (.ok pmID, pmID)

/-- Remote responses observed during one Update call: the client
construction, the pool fetch, the pool-update call (a response that may
depend on the submitted member collection), the task status polls, and the
task-info fetches of the extraction. -/
structure UpdateEnv where
  clientResp : Except GErr Unit
  getPoolResp : Except GErr Pool
  updateResp : List CreatePoolMemberOpts → Except GErr (List String)
  statusPolls : List TaskStatus
  taskGet : String → Except String TaskInfo

/-- The control flow of `resourceLBMemberUpdate` (lines 246-315): create
the client, fetch the pool, build the replacement member collection, issue
the pool update (name unchanged, members replaced), take the first task of
the response and wait for it with the update extraction; the authoritative
state then comes from the trailing read refresh. -/
def lbMemberUpdate (env : UpdateEnv) (mid : String) (cfg : MemberConfig) :
    Outcome Unit :=
  match env.clientResp with
  | .error e => .err e
  | .ok _ =>
    match env.getPoolResp with
    | .error e => .err e
    | .ok pool =>
      match env.updateResp (buildReplacementMembers pool.members mid cfg) with
      | .error e => .err e
      | .ok taskList =>
        match taskList[0]? with
        | none => .outOfBounds
        | some taskID =>
          match waitTaskAndReturnResult taskID env.statusPolls
              (updateTaskChecker env.taskGet) with
          | .error e => .err e
          | .ok _ => .ok ()

/-- Claim C2: in Delete, a not-found error from the initial remove-member
call yields success with the local identity cleared; any other error of
that call is returned with the identity unchanged. -/
theorem delete_not_found_is_success (mid : String) (e : GErr)
    (polls : List (Except GErr Pool)) (h : e ≠ GErr.errDefault404) :
    lbMemberDelete mid (.error .errDefault404) polls = (.ok (), "") ∧
    lbMemberDelete mid (.error e) polls = (.err e, mid) := by
  refine ⟨rfl, ?_⟩
  cases e with
  | errDefault404 => exact absurd rfl h
  | transport m => rfl
  | taskFailure t => rfl
  | timeout => rfl
  | extraction m => rfl
  | stillExist m => rfl

/-- Witness for C2: a concrete transport error is surfaced and the identity
kept, while a not-found error is converted to success with the identity
cleared. -/
theorem delete_not_found_is_success_witness :
    GErr.transport "boom" ≠ GErr.errDefault404 ∧
    (lbMemberDelete "m-1" (.error .errDefault404) [] = (.ok (), "") ∧
     lbMemberDelete "m-1" (.error (.transport "boom")) [] =
       (.err (.transport "boom"), "m-1")) :=
  ⟨by decide, delete_not_found_is_success "m-1" (.transport "boom") []
    (by decide)⟩

theorem deleteVerifyWait_all_present (mid : String) (qs : List Pool)
    (h : ∀ p ∈ qs, memberStillPresent mid p = true) :
    deleteVerifyWait mid (qs.map Except.ok) = .error .timeout := by
  induction qs with
  | nil => rfl
  | cons p rest ih =>
    have hp := h p (List.mem_cons_self p rest)
    simp only [List.map_cons, deleteVerifyWait, deleteVerifyCheck, hp, if_pos]
    exact ih fun r hr => h r (List.mem_cons_of_mem p hr)

/-- Claim C3: after the remove-member task is submitted the verification
re-fetches the pool each poll; while the member identity is still listed
the poller retries instead of failing, it succeeds as soon as a poll shows
the identity absent, it returns a timeout error when the identity never
disappears within the poll budget, and the local identity is cleared
exactly when the verification succeeds. -/
theorem delete_verification_retry_and_timeout (mid : String)
    (ps rest : List Pool) (q : Pool) (hmid : mid ≠ "")
    (hps : ∀ p ∈ ps, memberStillPresent mid p = true)
    (hq : memberStillPresent mid q = false) :
    deleteVerifyWait mid
        (ps.map Except.ok ++ Except.ok q :: rest.map Except.ok) = .ok () ∧
    (∀ qs : List Pool, (∀ p ∈ qs, memberStillPresent mid p = true) →
      deleteVerifyWait mid (qs.map Except.ok) = .error .timeout) ∧
    (∀ (t : String) (polls : List (Except GErr Pool)),
      ((lbMemberDelete mid (.ok [t]) polls).2 = "" ↔
        deleteVerifyWait mid polls = .ok ())) := by
  refine ⟨?_, fun qs hqs => deleteVerifyWait_all_present mid qs hqs, ?_⟩
  · induction ps with
    | nil =>
      simp only [List.map_nil, List.nil_append, deleteVerifyWait,
        deleteVerifyCheck, hq, if_neg, Bool.false_eq_true, not_false_iff]
    | cons p rest2 ih =>
      have hp := hps p (List.mem_cons_self p rest2)
      simp only [List.map_cons, List.cons_append, deleteVerifyWait,
        deleteVerifyCheck, hp, if_pos]
      exact ih fun r hr => hps r (List.mem_cons_of_mem p hr)
  · intro t polls
    cases hv : deleteVerifyWait mid polls with
    | ok u =>
      constructor
      · intro hc; rfl
      · intro hc
        simp [lbMemberDelete, hv]
    | error e =>
      constructor
      · intro hc
        exfalso
        apply hmid
        have : (lbMemberDelete mid (.ok [t]) polls).2 = mid := by
          simp [lbMemberDelete, hv]
        rw [this] at hc
        exact hc
      · intro hc
        cases hc

/-- A pool with no members, used as the observation in which the deleted
member is absent. -/
def emptyPool : Pool := { id := "pool-1", name := "pool", members := [] }

/-- Witness for C3: with one poll still listing member 2 and a second poll
showing it absent, the verification succeeds. -/
theorem delete_verification_retry_and_timeout_witness :
    ("2" : String) ≠ "" ∧
    (∀ p ∈ [exPool], memberStillPresent "2" p = true) ∧
    memberStillPresent "2" emptyPool = false ∧
    deleteVerifyWait "2"
        ([exPool].map Except.ok ++
          Except.ok emptyPool :: ([] : List Pool).map Except.ok) = .ok () :=
  ⟨by decide, by decide, by decide,
    (delete_verification_retry_and_timeout "2" [exPool] [] emptyPool
      (by decide) (by decide) (by decide)).1⟩

/-- Claim C4: every Create execution either fails — the outcome is not a
success and no identity is assigned (it stays empty, the resource remains
absent) — or succeeds with exactly the member identity that the task
poller's extraction returned. -/
theorem create_assigns_identity_only_on_success (env : CreateEnv) :
    ((lbMemberCreate env).1.isOk = false ∧ (lbMemberCreate env).2 = "") ∨
    ((lbMemberCreate env).1 = .ok ((lbMemberCreate env).2) ∧
      ∃ taskID taskList, env.createResp = .ok taskList ∧
        taskList[0]? = some taskID ∧
        waitTaskAndReturnResult taskID env.statusPolls
            (createTaskChecker env.taskGet) = .ok ((lbMemberCreate env).2)) := by
  obtain ⟨cl, cr, sp, tg⟩ := env
  cases cl with
  | error e => exact Or.inl ⟨rfl, rfl⟩
  | ok u =>
    cases cr with
    | error e => exact Or.inl ⟨rfl, rfl⟩
    | ok taskList =>
      cases taskList with
      | nil => exact Or.inl ⟨rfl, rfl⟩
      | cons t ts =>
        cases hw : waitTaskAndReturnResult t sp (createTaskChecker tg) with
        | error e =>
          left
          constructor <;> simp [lbMemberCreate, hw, Outcome.isOk]
        | ok pmID =>
          right
          refine ⟨?_, t, t :: ts, rfl, by simp, ?_⟩ <;> simp [lbMemberCreate, hw]

/-- Claim C10: in Create, Update and Delete the response's task list is
indexed at position zero with no emptiness check: the operation hits an
out-of-bounds access exactly when the mutating call succeeds with an empty
task list, and the access is in bounds whenever the response carries at
least one task. -/
theorem tasks_first_index_bounds (envC : CreateEnv) (envU : UpdateEnv)
    (mid : String) (cfg : MemberConfig) (dmid : String)
    (dResp : Except GErr (List String)) (polls : List (Except GErr Pool)) :
    ((lbMemberCreate envC).1 = .outOfBounds ↔
      envC.clientResp = .ok () ∧ envC.createResp = .ok []) ∧
    (lbMemberUpdate envU mid cfg = .outOfBounds ↔
      (envU.clientResp = .ok () ∧ ∃ pool, envU.getPoolResp = .ok pool ∧
        envU.updateResp (buildReplacementMembers pool.members mid cfg) =
          .ok [])) ∧
    ((lbMemberDelete dmid dResp polls).1 = .outOfBounds ↔ dResp = .ok []) := by
  refine ⟨?_, ?_, ?_⟩
  · obtain ⟨cl, cr, sp, tg⟩ := envC
    cases cl with
    | error e => simp [lbMemberCreate]
    | ok u =>
      cases cr with
      | error e => simp [lbMemberCreate]
      | ok taskList =>
        cases taskList with
        | nil => simp [lbMemberCreate]
        | cons t ts =>
          cases hw : waitTaskAndReturnResult t sp (createTaskChecker tg) <;>
            simp [lbMemberCreate, hw]
  · obtain ⟨cl, gp, ur, sp, tg⟩ := envU
    cases cl with
    | error e => simp [lbMemberUpdate]
    | ok u =>
      cases gp with
      | error e => simp [lbMemberUpdate]
      | ok pool =>
        cases hu : ur (buildReplacementMembers pool.members mid cfg) with
        | error e => simp [lbMemberUpdate, hu]
        | ok taskList =>
          cases taskList with
          | nil => simp [lbMemberUpdate, hu]
          | cons t ts =>
            cases hw : waitTaskAndReturnResult t sp (updateTaskChecker tg) <;>
              simp [lbMemberUpdate, hu, hw]
  · cases dResp with
    | error e =>
      cases e <;> simp [lbMemberDelete]
    | ok taskList =>
      cases taskList with
      | nil => simp [lbMemberDelete]
      | cons t ts =>
        cases hv : deleteVerifyWait dmid polls <;> simp [lbMemberDelete, hv]
